import Mathlib

/-!
Verification development for the voice-interview orchestration engine
(`voice_final.py`, `voice_interview_handler.py`): a shallow embedding of the
interview session state, the WebSocket handler operations, and the CLI
finalization step, with theorems settling the specification's claims.
-/

set_option maxHeartbeats 1000000

/-- Audio payloads are byte strings; bytes are modelled as naturals. -/
abbrev Bytes := List Nat

/-- MIME type hints are plain strings, as in the handler. -/
abbrev Mime := String

/-- The fixed question categories, the keys of
`OptimizedVoiceInterview.question_types_used` (voice_final.py lines 52-63). -/
inductive Cat where
  | introduction
  | technical_skills
  | projects_deep_dive
  | certifications
  | behavioral
  | situational
  | leadership
  | problem_solving
  | communication
  | career_goals
deriving DecidableEq, Repr

/-- Python's `min(best :: rest, key=k)`: the first element attaining the least
key, mirroring `min(available_types, key=lambda x: type_counts[x])`. -/
def minByKey (key : Cat → Nat) : Cat → List Cat → Cat
  | best, [] => best
  | best, c :: cs => if key c < key best then minByKey key c cs else minByKey key best cs

/-- `OptimizedVoiceInterview.determine_next_question_type` (voice_final.py
lines 178-198): chooses the category of the next generated question from the
`questions_asked` counter and the per-category usage counts
(`type_counts[x] = len(question_types_used[x])`). -/
def determine_next_question_type (questions_asked : Nat) (counts : Cat → Nat) : Cat :=
  if questions_asked ≤ 6 then
    minByKey counts Cat.technical_skills [Cat.projects_deep_dive]
  else if questions_asked ≤ 10 then
    minByKey counts Cat.problem_solving [Cat.certifications, Cat.situational]
  else if questions_asked ≤ 13 then
    minByKey counts Cat.leadership [Cat.communication]
  else
    Cat.career_goals

/-- Modelled from the spec: the banding policy claim C3 asserts, keyed by the
ordinal (1-based interview position, per the glossary) of the generated
question: ordinals 4-6, 7-10, 11-13, 14-15. -/
def specClaimBand (ordinal : Nat) : List Cat :=
  if 4 ≤ ordinal ∧ ordinal ≤ 6 then
    [Cat.technical_skills, Cat.projects_deep_dive]
  else if 7 ≤ ordinal ∧ ordinal ≤ 10 then
    [Cat.problem_solving, Cat.certifications, Cat.situational]
  else if 11 ≤ ordinal ∧ ordinal ≤ 13 then
    [Cat.leadership, Cat.communication]
  else
    [Cat.career_goals]

/-- The banding the code actually implements, keyed by the ordinal of the
generated question (which is `questions_asked + 1` at generation time, the
value `generate_next_question_async` tags as `question_number`). -/
def codeBand (ordinal : Nat) : List Cat :=
  if ordinal ≤ 7 then
    [Cat.technical_skills, Cat.projects_deep_dive]
  else if ordinal ≤ 11 then
    [Cat.problem_solving, Cat.certifications, Cat.situational]
  else if ordinal ≤ 14 then
    [Cat.leadership, Cat.communication]
  else
    [Cat.career_goals]

/-- Modelled from the spec: within the eligible band, the category used least
often so far, ties broken by the band's listed order (the first band member
whose count is no larger than every band member's count). -/
def leastUsedInBand (counts : Cat → Nat) (band : List Cat) : Option Cat :=
  band.find? (fun c => band.all (fun d => decide (counts c ≤ counts d)))

lemma leastUsed_pair (k : Cat → Nat) (a b : Cat) :
    leastUsedInBand k [a, b] = some (if k b < k a then b else a) := by
  unfold leastUsedInBand
  by_cases hab : k a ≤ k b
  · rw [List.find?_cons_of_pos]
    · rw [if_neg (Nat.not_lt.mpr hab)]
    · simp [hab]
  · rw [List.find?_cons_of_neg, List.find?_cons_of_pos]
    · rw [if_pos (Nat.lt_of_not_le hab)]
    · simp [Nat.le_of_lt (Nat.lt_of_not_le hab)]
    · simp [hab]

lemma lu3_first (k : Cat → Nat) (a b c : Cat) (h1 : k a ≤ k b) (h2 : k a ≤ k c) :
    leastUsedInBand k [a, b, c] = some a := by
  unfold leastUsedInBand
  rw [List.find?_cons_of_pos _ (by simp [h1, h2])]

lemma lu3_second (k : Cat → Nat) (a b c : Cat) (ha : ¬(k a ≤ k b ∧ k a ≤ k c))
    (hb1 : k b ≤ k a) (hb2 : k b ≤ k c) :
    leastUsedInBand k [a, b, c] = some b := by
  unfold leastUsedInBand
  rw [List.find?_cons_of_neg _ (by simp; omega),
    List.find?_cons_of_pos _ (by simp [hb1, hb2])]

lemma lu3_third (k : Cat → Nat) (a b c : Cat) (ha : ¬(k a ≤ k b ∧ k a ≤ k c))
    (hb : ¬(k b ≤ k a ∧ k b ≤ k c)) (hc1 : k c ≤ k a) (hc2 : k c ≤ k b) :
    leastUsedInBand k [a, b, c] = some c := by
  unfold leastUsedInBand
  rw [List.find?_cons_of_neg _ (by simp; omega),
    List.find?_cons_of_neg _ (by simp; omega),
    List.find?_cons_of_pos _ (by simp [hc1, hc2])]

lemma leastUsed_triple (k : Cat → Nat) (a b c : Cat) :
    leastUsedInBand k [a, b, c] =
      some (if k b < k a then (if k c < k b then c else b)
            else (if k c < k a then c else a)) := by
  by_cases hba : k b < k a
  · by_cases hcb : k c < k b
    · rw [if_pos hba, if_pos hcb, lu3_third k a b c (by omega) (by omega) (by omega) (by omega)]
    · rw [if_pos hba, if_neg hcb, lu3_second k a b c (by omega) (by omega) (by omega)]
  · by_cases hca : k c < k a
    · rw [if_neg hba, if_pos hca, lu3_third k a b c (by omega) (by omega) (by omega) (by omega)]
    · rw [if_neg hba, if_neg hca, lu3_first k a b c (by omega) (by omega)]

lemma leastUsed_single (k : Cat → Nat) (a : Cat) :
    leastUsedInBand k [a] = some a := by
  unfold leastUsedInBand
  rw [List.find?_cons_of_pos]
  simp

/-- Claim C3 (counterexample): at ordinal 7 — `questions_asked = 6` when the
generation task runs — with no categories used yet, the code selects
`technical_skills`, which is not in the band
{problem_solving, certifications, situational} that the claim assigns to
ordinals 7-10. -/
theorem c3_spec_banding_counterexample :
    determine_next_question_type 6 (fun _ => 0) = Cat.technical_skills ∧
    determine_next_question_type 6 (fun _ => 0) ∉ specClaimBand 7 := by
  exact ⟨rfl, by decide⟩

/-- Claim C3 (amended): generated questions are banded by ordinal with
boundaries shifted one later than the claim states — ordinals 4-7 choose from
{technical_skills, projects_deep_dive}, 8-11 from
{problem_solving, certifications, situational}, 12-14 from
{leadership, communication}, and 15 is fixed to career_goals; within the
eligible band the category used least often so far is chosen, ties broken by
the band's listed order. -/
theorem c3_banding_amended (qa : Nat) (counts : Cat → Nat)
    (h3 : 3 ≤ qa) (h14 : qa ≤ 14) :
    some (determine_next_question_type qa counts)
      = leastUsedInBand counts (codeBand (qa + 1)) := by
  unfold determine_next_question_type codeBand
  rcases Nat.lt_or_ge qa 7 with h | h
  · rw [if_pos (by omega), if_pos (by omega), leastUsed_pair]
    rfl
  · rcases Nat.lt_or_ge qa 11 with h' | h'
    · rw [if_neg (by omega), if_pos (by omega), if_neg (by omega), if_pos (by omega),
        leastUsed_triple]
      rfl
    · rcases Nat.lt_or_ge qa 14 with h'' | h''
      · rw [if_neg (by omega), if_neg (by omega), if_pos (by omega), if_neg (by omega),
          if_neg (by omega), if_pos (by omega), leastUsed_pair]
        rfl
      · rw [if_neg (by omega), if_neg (by omega), if_neg (by omega), if_neg (by omega),
          if_neg (by omega), if_neg (by omega), leastUsed_single]

/-- Witness for `c3_banding_amended` at `questions_asked = 3` (ordinal 4) with
no categories used yet. -/
theorem c3_banding_amended_witness :
    3 ≤ 3 ∧ 3 ≤ 14 ∧
      some (determine_next_question_type 3 (fun _ => 0))
        = leastUsedInBand (fun _ => 0) (codeBand 4) :=
  ⟨by decide, by decide, c3_banding_amended 3 (fun _ => 0) (by decide) (by decide)⟩

/-- A transcription result / QA-history entry: the dict
`{"question_number", "question", "answer", "timestamp"}` built by
`transcribe_in_background`; timestamps are abstracted to naturals. -/
structure Entry where
  question_number : Nat
  question : String
  answer : String
  timestamp : Nat
deriving DecidableEq, Repr

/-- A prepared question: the dict placed on `audio_queue`
(`{"question", "audio", "type", "source", "order"}`); `order` is 0 when the
source dict carries no order key. -/
structure PreparedQuestion where
  question : String
  audio : Option Bytes
  qtype : String
  source : String
  order : Nat
deriving DecidableEq, Repr

/-- One of the three fixed starter questions (voice_final.py lines 79-83). -/
structure FixedQ where
  text : String
  qtype : String
  order : Nat
deriving DecidableEq, Repr

/-- `OptimizedVoiceInterview.fixed_starter_questions`. -/
def fixed_starter_questions : List FixedQ :=
  [⟨"Introduce yourself.", "introduction", 1⟩,
   ⟨"Why are you interested in this role and company?", "behavioral", 2⟩,
   ⟨"What's your biggest weakness and how are you improving it?", "behavioral", 3⟩]

/-- The `behavioral_questions` fallback list of
`WebSocketVoiceInterviewHandler._generate_dynamic_question` (lines 194-207). -/
def behavioral_questions : List String :=
  ["Describe a time when you had to work under pressure. How did you handle it?",
   "Tell me about a challenging technical problem you solved recently.",
   "How do you stay updated with new technologies in your field?",
   "Describe your approach to debugging complex issues.",
   "Tell me about a time you disagreed with a team member. How did you resolve it?",
   "What's your process for learning a new technology or framework?",
   "Describe a project where you had to work with unclear requirements.",
   "How do you ensure code quality in your projects?",
   "Tell me about a time you had to explain a technical concept to a non-technical person.",
   "What motivates you to work in this field?",
   "How do you approach testing your code?",
   "Describe a time when you had to optimize performance in an application."]

/-- Python `set.add` on a set modelled as a duplicate-free list: a no-op when
the element is present, else appended. -/
def addToSet (x : String) (s : List String) : List String :=
  if x ∈ s then s else s ++ [x]

/-- Python's case-insensitive substring test `needle.lower() in hay.lower()`. -/
def pyIn (needle hay : String) : Bool :=
  decide (needle.toLower.data <:+: hay.toLower.data)

/-- The `topic_keywords` table of `update_covered_topics` (voice_final.py
lines 483-489). -/
def topic_keywords : List (String × List String) :=
  [("leadership", ["lead", "manage", "team", "mentor"]),
   ("challenges", ["challenge", "problem", "difficult", "issue"]),
   ("learning", ["learn", "new", "study", "research"]),
   ("teamwork", ["team", "collaborate", "work together"]),
   ("communication", ["explain", "present", "communicate", "document"])]

/-- The `OptimizedVoiceInterview` state the session operations use.
`resume_skills` are `resume_data['skills']`, `resume_projects` the names of
`resume_data['projects']`; `question_types_used` is written only by the CLI
generator and reaches `determine_next_question_type` as its counts
argument. -/
structure Interview where
  resume_skills : List String
  resume_projects : List String
  qa_history : List Entry
  questions_asked : Nat
  max_questions : Nat
  covered_topics : List String
  projects_discussed : List String
  skills_discussed : List String
  audio_queue : List PreparedQuestion
  transcription_queue : List Entry
deriving DecidableEq, Repr

/-- `OptimizedVoiceInterview.update_covered_topics` (voice_final.py lines
466-493): scan the question and answer for resume skills, project names and
the keyword table, growing the coverage sets. -/
def update_covered_topics (iv : Interview) (question answer : String) : Interview :=
  let skills := iv.resume_skills.foldl
    (fun acc skill =>
      if pyIn skill question || pyIn skill answer then addToSet skill acc else acc)
    iv.skills_discussed
  let projects := iv.resume_projects.foldl
    (fun acc p =>
      if (p != "") && (pyIn p question || pyIn p answer) then addToSet p acc else acc)
    iv.projects_discussed
  let topics := topic_keywords.foldl
    (fun acc tk =>
      if tk.2.any (fun kw => pyIn kw question || pyIn kw answer) then
        addToSet tk.1 acc
      else acc)
    iv.covered_topics
  { iv with
      skills_discussed := skills
      projects_discussed := projects
      covered_topics := topics }

/-- Per-session WebSocket handler state: the interview instance plus this
session's entries of `audio_chunks` and `audio_mime_types`
(`create_session` initializes them to `[]` and `'audio/webm'`). -/
structure SessState where
  interview : Interview
  chunks : List Bytes
  mime : Mime
deriving DecidableEq, Repr

/-- The observable outcome of one handler operation: the response fields the
claims mention, plus what `finish_recording` hands to
`transcribe_in_background` (`handedAudio`, `handedMime`). -/
structure Out where
  success : Bool
  error : Option String := none
  questionNumber : Option Nat := none
  questionText : Option String := none
  questionType : Option String := none
  hasAudio : Option Bool := none
  handedAudio : Option Bytes := none
  handedMime : Option Mime := none
  transcription : Option Entry := none
deriving DecidableEq, Repr

/-- A plain success response. -/
def Out.ok : Out := { success := true }

/-- A failure response carrying the handler's error string. -/
def Out.err (msg : String) : Out := { success := false, error := some msg }

/-- One client-driven operation on an existing session, plus
`transcriptionArrives`: the background transcription worker publishing its
result (`ok := false` is the worker's exception path, which skips the
coverage update and publishes a failure placeholder). -/
inductive Op where
  | getNextQuestion
  | audioChunk (data : Bytes) (mime : Mime)
  | finishRecording
  | getTranscription
  | transcriptionArrives (e : Entry) (ok : Bool)
  | getStatus
deriving DecidableEq, Repr

/-- `OptimizedVoiceInterview.get_unused_resume_elements` (voice_final.py
lines 200-208): resume skills and project names not yet discussed. Python
materializes the set differences in unspecified set iteration order; the
model keeps resume order. -/
def get_unused_resume_elements (iv : Interview) : List String × List String :=
  (iv.resume_skills.filter (fun s => decide (s ∉ iv.skills_discussed)),
   iv.resume_projects.filter (fun p => decide (p ∉ iv.projects_discussed)))

/-- The skill or project `_generate_dynamic_question` selects at a given
state: the first unused skill, else the first unused project, else none
(behavioral fallback). -/
def dynSelection (iv : Interview) : Option String × Option String :=
  match get_unused_resume_elements iv with
  | (skill :: _, _) => (some skill, none)
  | ([], proj :: _) => (none, some proj)
  | ([], []) => (none, none)

/-- `WebSocketVoiceInterviewHandler._generate_dynamic_question` (lines
147-256): build the question from the first unused skill, else the first
unused project, else the behavioral list; mark the selected element as
discussed; attach synthesized audio when available (`tts` returns `none`
when `generate_tts_audio` fails or raises). -/
def generate_dynamic_question (tts : String → Option Bytes) (iv : Interview) :
    PreparedQuestion × Interview :=
  match get_unused_resume_elements iv with
  | (skill :: _, _) =>
    let text := "Tell me about your experience with " ++ skill ++
      " and how you've applied it in your projects."
    (⟨text, tts text, "technical_skills", "generated", 0⟩,
     { iv with skills_discussed := addToSet skill iv.skills_discussed })
  | ([], proj :: _) =>
    let text := "Can you walk me through your " ++ proj ++
      " project and the challenges you faced?"
    (⟨text, tts text, "projects_deep_dive", "generated", 0⟩,
     { iv with projects_discussed := addToSet proj iv.projects_discussed })
  | ([], []) =>
    let idx := min (iv.questions_asked - 3) (behavioral_questions.length - 1)
    let text := behavioral_questions.getD idx ""
    (⟨text, tts text, "behavioral", "generated", 0⟩, iv)

/-- The `question_data` computation of `get_next_question` (lines 92-114):
fixed starters (queue pop, else the fixed-text fallback) while
`questions_asked < 3`, else `_generate_dynamic_question`. -/
def nextQuestionPair (tts : String → Option Bytes) (iv : Interview) :
    Option PreparedQuestion × Interview :=
  if iv.questions_asked < 3 then
    match iv.audio_queue with
    | q :: rest => (some q, { iv with audio_queue := rest })
    | [] =>
      match fixed_starter_questions.get? iv.questions_asked with
      | some fq => (some ⟨fq.text, none, fq.qtype, "fixed_starter", fq.order⟩, iv)
      | none => (none, iv)
  else
    let gp := generate_dynamic_question tts iv
    (some gp.1, gp.2)

/-- `WebSocketVoiceInterviewHandler.get_next_question` (lines 74-145) on an
existing session. -/
def get_next_question (tts : String → Option Bytes) (σ : SessState) : Out × SessState :=
  if σ.interview.questions_asked ≥ σ.interview.max_questions then
    (Out.err "Interview completed", σ)
  else
    match nextQuestionPair tts σ.interview with
    | (some q, iv') =>
      ({ success := true
         questionNumber := some (iv'.questions_asked + 1)
         questionText := some q.question
         questionType := some q.qtype
         hasAudio := some q.audio.isSome }, { σ with interview := iv' })
    | (none, _) => (Out.err "Could not generate question", σ)

/-- One handler operation on an existing session (the `Session not found`
guard lives in the registry-level model below). `audioChunk` is
`process_audio_chunk` (lines 258-266), `finishRecording` is
`finish_recording` (lines 268-305), `getTranscription` is
`get_transcription` (lines 307-329), `getStatus` is `get_session_status`. -/
def step (tts : String → Option Bytes) (σ : SessState) : Op → Out × SessState
  | .getNextQuestion => get_next_question tts σ
  | .audioChunk d m => (Out.ok, { σ with chunks := σ.chunks ++ [d], mime := m })
  | .finishRecording =>
    if σ.chunks.isEmpty then (Out.err "No audio data received", σ)
    else
      let combined := σ.chunks.flatten
      ({ success := true
         questionNumber := some (σ.interview.questions_asked + 1)
         handedAudio := some combined
         handedMime := some σ.mime },
       { σ with
           chunks := []
           interview :=
             { σ.interview with questions_asked := σ.interview.questions_asked + 1 } })
  | .getTranscription =>
    match σ.interview.transcription_queue with
    | e :: rest =>
      ({ success := true, transcription := some e },
       { σ with interview :=
         { σ.interview with
             transcription_queue := rest
             qa_history := σ.interview.qa_history ++ [e] } })
    | [] => (Out.err "Transcription not ready", σ)
  | .transcriptionArrives e ok =>
    let iv1 := if ok then update_covered_topics σ.interview e.question e.answer
               else σ.interview
    (Out.ok, { σ with interview :=
      { iv1 with transcription_queue := iv1.transcription_queue ++ [e] } })
  | .getStatus => (Out.ok, σ)

/-- Run a list of operations. -/
def run (tts : String → Option Bytes) : SessState → List Op → SessState
  | σ, [] => σ
  | σ, op :: ops => run tts (step tts σ op).2 ops

/-- The outputs of a list of operations, in order. -/
def runOuts (tts : String → Option Bytes) : SessState → List Op → List Out
  | _, [] => []
  | σ, op :: ops => (step tts σ op).1 :: runOuts tts (step tts σ op).2 ops

/-- The number of successfully completed answer-captures in an operation
list: `finish_recording` calls that accept a non-empty chunk buffer. -/
def countCaptures (tts : String → Option Bytes) : SessState → List Op → Nat
  | _, [] => 0
  | σ, op :: ops =>
    (if op = Op.finishRecording ∧ σ.chunks ≠ [] then 1 else 0)
      + countCaptures tts (step tts σ op).2 ops

/-- `preload_fixed_starter_questions` (voice_final.py lines 328-375): one TTS
task per fixed starter question is submitted to a 3-worker pool; each task
enqueues its question, with the synthesized audio when `generate_tts_audio`
succeeded and `audio = None` when it returned `None` or raised. The tasks run
concurrently: `completed` is the order in which they finish and enqueue, some
permutation of `fixed_starter_questions`. -/
def preload_fixed_starter_questions (tts : String → Option Bytes)
    (completed : List FixedQ) : List PreparedQuestion :=
  completed.map (fun q => ⟨q.text, tts q.text, q.qtype, "fixed_starter", q.order⟩)

/-- `create_session` (lines 36-72) after a successful resume/job parse: a
fresh interview holding the parsed resume data and the staged starter queue,
with `audio_chunks[sid] = []` and `audio_mime_types[sid] = 'audio/webm'`. -/
def initSession (skills projects : List String)
    (queue : List PreparedQuestion) : SessState :=
  ⟨⟨skills, projects, [], 0, 15, [], [], [], queue, []⟩, [], "audio/webm"⟩

/-- One client round: request the next question, send one audio chunk,
finish the recording. -/
def captureRound : List Op :=
  [Op.getNextQuestion, Op.audioChunk [0] "audio/webm", Op.finishRecording]

/-- The texts of the questions delivered across `n` client rounds. -/
def deliveredTexts (tts : String → Option Bytes) (σ : SessState) (n : Nat) :
    List String :=
  (runOuts tts σ (List.replicate n captureRound).flatten).filterMap (·.questionText)

/-- One capture step of the CLI loop (voice_final.py lines 771-775): after
the recording stops, `questions_asked += 1` and the transcription is
submitted to the background pool. -/
def cliCaptureStep (iv : Interview) (_audio : Bytes) : Interview :=
  { iv with questions_asked := iv.questions_asked + 1 }

/-- The CLI finish step (voice_final.py lines 792-795): from the collected
transcriptions (a map from question number to the received result), append
the entry of each ordinal 1..15 that has one; an ordinal without a collected
result is skipped. -/
def build_qa_history (collected : Nat → Option Entry) : List Entry :=
  (List.range 15).filterMap (fun i => collected (i + 1))

lemma gdq_questions_asked (tts : String → Option Bytes) (iv : Interview) :
    (generate_dynamic_question tts iv).2.questions_asked = iv.questions_asked := by
  unfold generate_dynamic_question
  split <;> rfl

lemma nextQuestionPair_qa (tts : String → Option Bytes) (iv : Interview) :
    (nextQuestionPair tts iv).2.questions_asked = iv.questions_asked := by
  unfold nextQuestionPair
  split
  · split
    · rfl
    · split <;> rfl
  · exact gdq_questions_asked tts iv

lemma gnq_questions_asked (tts : String → Option Bytes) (σ : SessState) :
    (get_next_question tts σ).2.interview.questions_asked
      = σ.interview.questions_asked := by
  unfold get_next_question
  split
  · rfl
  · split
    next q iv' heq =>
      have h := nextQuestionPair_qa tts σ.interview
      rw [heq] at h
      exact h
    next => rfl

lemma update_covered_topics_qa (iv : Interview) (q a : String) :
    (update_covered_topics iv q a).questions_asked = iv.questions_asked := rfl

lemma step_questions_asked (tts : String → Option Bytes) (σ : SessState) (op : Op) :
    (step tts σ op).2.interview.questions_asked =
      σ.interview.questions_asked
        + (if op = Op.finishRecording ∧ σ.chunks ≠ [] then 1 else 0) := by
  cases op with
  | getNextQuestion =>
    simpa [step] using gnq_questions_asked tts σ
  | audioChunk d m => simp [step]
  | finishRecording =>
    by_cases h : σ.chunks.isEmpty
    · have h' : σ.chunks = [] := by simpa [List.isEmpty_iff] using h
      simp [step, h, h']
    · have h' : σ.chunks ≠ [] := by simpa [List.isEmpty_iff] using h
      simp [step, h, h']
  | getTranscription =>
    cases h : σ.interview.transcription_queue <;> simp [step, h]
  | transcriptionArrives e ok =>
    cases ok <;> simp [step, update_covered_topics_qa]
  | getStatus => simp [step]

lemma run_questions_asked (tts : String → Option Bytes) (σ : SessState)
    (ops : List Op) :
    (run tts σ ops).interview.questions_asked
      = σ.interview.questions_asked + countCaptures tts σ ops := by
  induction ops generalizing σ with
  | nil => rfl
  | cons op ops ih =>
    show (run tts (step tts σ op).2 ops).interview.questions_asked = _
    rw [ih, step_questions_asked]
    show _ = _ + ((if op = Op.finishRecording ∧ σ.chunks ≠ [] then 1 else 0)
      + countCaptures tts (step tts σ op).2 ops)
    omega

/-- Claim C4: `questions_asked` is monotonically non-decreasing, increases by
exactly 1 on each successfully completed answer-capture (`finish_recording`
accepting a non-empty chunk buffer; each CLI capture step), is changed by no
other operation, and always equals its starting value plus the number of
answer-captures completed so far. -/
theorem c4_questions_asked_counter (tts : String → Option Bytes)
    (σ : SessState) (ops : List Op) :
    (∀ op : Op, (step tts σ op).2.interview.questions_asked =
        σ.interview.questions_asked
          + (if op = Op.finishRecording ∧ σ.chunks ≠ [] then 1 else 0)) ∧
    (run tts σ ops).interview.questions_asked
      = σ.interview.questions_asked + countCaptures tts σ ops ∧
    σ.interview.questions_asked ≤ (run tts σ ops).interview.questions_asked ∧
    (∀ audio : Bytes, (cliCaptureStep σ.interview audio).questions_asked
      = σ.interview.questions_asked + 1) := by
  refine ⟨step_questions_asked tts σ, run_questions_asked tts σ ops, ?_, fun _ => rfl⟩
  rw [run_questions_asked]
  omega

/-- Deliver a sequence of audio chunks (`process_audio_chunk` events) to a
session, in arrival order. -/
def applyChunks (tts : String → Option Bytes) (σ : SessState)
    (l : List (Bytes × Mime)) : SessState :=
  run tts σ (l.map (fun p => Op.audioChunk p.1 p.2))

lemma applyChunks_state (tts : String → Option Bytes) (σ : SessState)
    (l : List (Bytes × Mime)) :
    applyChunks tts σ l =
      { σ with
          chunks := σ.chunks ++ l.map Prod.fst
          mime := (l.map Prod.snd).getLastD σ.mime } := by
  induction l generalizing σ with
  | nil => simp [applyChunks, run]
  | cons p t ih =>
    show applyChunks tts ((step tts σ (Op.audioChunk p.1 p.2)).2) t = _
    rw [ih]
    simp only [step, List.map_cons, List.getLastD_cons, List.append_assoc,
      List.singleton_append]

lemma getLastD_map_snd (l : List (Bytes × Mime)) (h : l ≠ []) (d : Mime) :
    (l.map Prod.snd).getLastD d = (l.getLast h).2 := by
  rw [List.getLastD_eq_getLast?,
    List.getLast?_eq_getLast (l.map Prod.snd) (by simpa using h),
    List.getLast_map]
  rfl

/-- Claim C6: when two or more audio chunks arrive before `finish_recording`,
the audio handed to the transcription worker is the concatenation of all
chunks received since the previous capture, in arrival order. -/
theorem c6_chunks_concatenated_in_order (tts : String → Option Bytes)
    (σ : SessState) (l : List (Bytes × Mime))
    (hbuf : σ.chunks = []) (h2 : 2 ≤ l.length) :
    (step tts (applyChunks tts σ l) Op.finishRecording).1.handedAudio
      = some (l.map Prod.fst).flatten := by
  rw [applyChunks_state]
  have hl : l ≠ [] := by
    cases l with
    | nil => simp at h2
    | cons p t => simp
  simp [step, hbuf, hl]

/-- Witness for `c6_chunks_concatenated_in_order`: two chunks `[0,1]` and
`[2]` are handed to the worker as `[0,1,2]`. -/
theorem c6_witness :
    (initSession ["Go"] [] []).chunks = [] ∧
    2 ≤ ([([0, 1], "audio/webm"), ([2], "audio/webm")] : List (Bytes × Mime)).length ∧
    (step (fun _ => none)
      (applyChunks (fun _ => none) (initSession ["Go"] [] [])
        [([0, 1], "audio/webm"), ([2], "audio/webm")])
      Op.finishRecording).1.handedAudio = some [0, 1, 2] := by
  refine ⟨rfl, by decide, ?_⟩
  rw [c6_chunks_concatenated_in_order (fun _ => none) _ _ rfl (by decide)]
  rfl

/-- Claim C10: the MIME hint handed to the transcription worker by
`finish_recording` is the MIME type of the most recently received chunk
(last-writer-wins), and the whole concatenated recording is decoded with that
single hint. -/
theorem c10_mime_last_writer_wins (tts : String → Option Bytes)
    (σ : SessState) (l : List (Bytes × Mime)) (h : l ≠ []) :
    (step tts (applyChunks tts σ l) Op.finishRecording).1.handedMime
      = some (l.getLast h).2 ∧
    (step tts (applyChunks tts σ l) Op.finishRecording).1.handedAudio
      = some (σ.chunks ++ l.map Prod.fst).flatten := by
  rw [applyChunks_state]
  have hmime := getLastD_map_snd l h σ.mime
  rw [List.getLastD_eq_getLast?, List.getLast?_map] at hmime
  constructor
  · simp [step, h, hmime]
  · simp [step, h]

/-- Witness for `c10_mime_last_writer_wins`: chunks arriving as `audio/webm`
then `audio/mp4` are decoded with `audio/mp4`. -/
theorem c10_witness :
    (([([0], "audio/webm"), ([1], "audio/mp4")] : List (Bytes × Mime)) ≠ []) ∧
    (step (fun _ => none)
      (applyChunks (fun _ => none) (initSession ["Go"] [] [])
        [([0], "audio/webm"), ([1], "audio/mp4")])
      Op.finishRecording).1.handedMime = some "audio/mp4" := by
  refine ⟨by decide, ?_⟩
  rw [(c10_mime_last_writer_wins (fun _ => none) (initSession ["Go"] [] [])
    [([0], "audio/webm"), ([1], "audio/mp4")] (by decide)).1]
  rfl

/-- Claim C8: `finish_recording` on an empty chunk buffer is rejected with
the no-audio error and leaves the session state unchanged, so the capture can
be retried for the same ordinal. -/
theorem c8_empty_buffer_rejected (tts : String → Option Bytes) (σ : SessState)
    (h : σ.chunks = []) :
    (step tts σ Op.finishRecording).1 = Out.err "No audio data received" ∧
    (step tts σ Op.finishRecording).2 = σ := by
  refine ⟨?_, ?_⟩ <;> simp [step, h]

/-- Witness for `c8_empty_buffer_rejected` on a fresh session. -/
theorem c8_witness :
    (initSession ["Go"] [] []).chunks = [] ∧
    (step (fun _ => none) (initSession ["Go"] [] []) Op.finishRecording).1
      = Out.err "No audio data received" ∧
    (step (fun _ => none) (initSession ["Go"] [] []) Op.finishRecording).2
      = initSession ["Go"] [] [] := by
  refine ⟨rfl, ?_, ?_⟩
  · exact (c8_empty_buffer_rejected (fun _ => none) _ rfl).1
  · exact (c8_empty_buffer_rejected (fun _ => none) _ rfl).2

lemma append3_ne_empty (p m s : String) (hp : p.length ≠ 0) : p ++ m ++ s ≠ "" := by
  intro hc
  have h := congrArg String.length hc
  have h0 : ("" : String).length = 0 := rfl
  rw [h0, String.length_append, String.length_append] at h
  omega

lemma getD_behavioral_ne_empty (i : Nat) (h : i ≤ 11) :
    behavioral_questions.getD i "" ≠ "" := by
  interval_cases i <;> decide

lemma gdq_output (tts : String → Option Bytes) (iv : Interview)
    (htts : ∀ t, tts t = none) :
    (generate_dynamic_question tts iv).1.audio = none ∧
    (generate_dynamic_question tts iv).1.question ≠ "" := by
  unfold generate_dynamic_question
  split
  · exact ⟨htts _, append3_ne_empty _ _ _ (by decide)⟩
  · exact ⟨htts _, append3_ne_empty _ _ _ (by decide)⟩
  · refine ⟨htts _, ?_⟩
    show behavioral_questions.getD
      (min (iv.questions_asked - 3) (behavioral_questions.length - 1)) "" ≠ ""
    refine getD_behavioral_ne_empty _ ?_
    have hlen : behavioral_questions.length = 12 := rfl
    rw [hlen]
    omega

lemma nextQuestionPair_failure (tts : String → Option Bytes) (iv : Interview)
    (htts : ∀ t, tts t = none)
    (hq : ∀ q ∈ iv.audio_queue, q.audio = none ∧ q.question ≠ "") :
    ∃ q iv', nextQuestionPair tts iv = (some q, iv')
      ∧ q.audio = none ∧ q.question ≠ "" := by
  unfold nextQuestionPair
  split
  next h3 =>
    rcases hqu : iv.audio_queue with _ | ⟨q, rest⟩
    · rcases hn : iv.questions_asked with _ | _ | _ | m
      · exact ⟨_, iv, rfl, rfl, by decide⟩
      · exact ⟨_, iv, rfl, rfl, by decide⟩
      · exact ⟨_, iv, rfl, rfl, by decide⟩
      · omega
    · have hmem : q ∈ iv.audio_queue := by rw [hqu]; exact List.mem_cons_self q rest
      exact ⟨q, _, rfl, (hq q hmem).1, (hq q hmem).2⟩
  next h3 =>
    obtain ⟨ha, ht⟩ := gdq_output tts iv htts
    exact ⟨(generate_dynamic_question tts iv).1, (generate_dynamic_question tts iv).2,
      rfl, ha, ht⟩

/-- Claim C7: if speech synthesis fails on every invocation, every preloaded
starter question is staged with no audio and non-empty text, and every
question delivered by `get_next_question` still succeeds, with non-empty
question text and `has_audio = false` — synthesis failure is never surfaced
as a delivery failure. -/
theorem c7_synthesis_failure_degrades_gracefully (tts : String → Option Bytes)
    (σ : SessState) (htts : ∀ t, tts t = none)
    (hq : ∀ q ∈ σ.interview.audio_queue, q.audio = none ∧ q.question ≠ "")
    (hlt : σ.interview.questions_asked < σ.interview.max_questions) :
    (∀ completed : List FixedQ, completed.Perm fixed_starter_questions →
      ∀ q ∈ preload_fixed_starter_questions tts completed,
        q.audio = none ∧ q.question ≠ "") ∧
    (get_next_question tts σ).1.success = true ∧
    (get_next_question tts σ).1.hasAudio = some false ∧
    ∃ t, (get_next_question tts σ).1.questionText = some t ∧ t ≠ "" := by
  constructor
  · intro completed hperm q hq'
    simp only [preload_fixed_starter_questions, List.mem_map] at hq'
    obtain ⟨fq, hfq, rfl⟩ := hq'
    have hfq' : fq ∈ fixed_starter_questions := hperm.mem_iff.mp hfq
    refine ⟨htts _, ?_⟩
    show fq.text ≠ ""
    fin_cases hfq' <;> decide
  · obtain ⟨q, iv', hpair, ha, ht⟩ := nextQuestionPair_failure tts σ.interview htts hq
    unfold get_next_question
    rw [if_neg (by omega), hpair]
    exact ⟨rfl, by simp [ha], q.question, rfl, ht⟩

/-- Witness for `c7_synthesis_failure_degrades_gracefully` on a fresh session
whose starter TTS tasks have not yet staged anything. -/
theorem c7_witness :
    (∀ t : String, (fun _ => (none : Option Bytes)) t = none) ∧
    (∀ q ∈ (initSession ["Go"] [] []).interview.audio_queue,
      q.audio = none ∧ q.question ≠ "") ∧
    (initSession ["Go"] [] []).interview.questions_asked
      < (initSession ["Go"] [] []).interview.max_questions ∧
    (get_next_question (fun _ => none) (initSession ["Go"] [] [])).1.success = true ∧
    (get_next_question (fun _ => none) (initSession ["Go"] [] [])).1.hasAudio
      = some false := by
  have hq : ∀ q ∈ (initSession ["Go"] [] []).interview.audio_queue,
      q.audio = none ∧ q.question ≠ "" := by
    intro q hmem
    exact absurd hmem (List.not_mem_nil q)
  have h := c7_synthesis_failure_degrades_gracefully (fun _ => none)
    (initSession ["Go"] [] []) (fun _ => rfl) hq (by decide)
  exact ⟨fun _ => rfl, hq, by decide, h.2.1, h.2.2.1⟩

/-- All states reachable from `σ` by some sequence of session operations. -/
inductive Reach (tts : String → Option Bytes) : SessState → SessState → Prop
  | refl (σ : SessState) : Reach tts σ σ
  | tail (σ σ' : SessState) (op : Op) :
      Reach tts σ σ' → Reach tts σ (step tts σ' op).2

lemma addToSet_mem_self (x : String) (s : List String) : x ∈ addToSet x s := by
  unfold addToSet
  split
  · assumption
  · exact List.mem_append_right s (List.mem_singleton_self x)

lemma addToSet_mem_of_mem (x y : String) (s : List String) (h : y ∈ s) :
    y ∈ addToSet x s := by
  unfold addToSet
  split
  · exact h
  · exact List.mem_append_left _ h

lemma mem_foldl_addToSet {α : Type} (l : List α) (cond : α → Bool) (g : α → String)
    (init : List String) (y : String) (h : y ∈ init) :
    y ∈ l.foldl (fun acc s => if cond s then addToSet (g s) acc else acc) init := by
  induction l generalizing init with
  | nil => exact h
  | cons a t ih =>
    show y ∈ t.foldl _ (if cond a then addToSet (g a) init else init)
    apply ih
    split
    · exact addToSet_mem_of_mem _ _ _ h
    · exact h

lemma update_covered_topics_skills_mono (iv : Interview) (qst ans y : String)
    (h : y ∈ iv.skills_discussed) :
    y ∈ (update_covered_topics iv qst ans).skills_discussed := by
  show y ∈ iv.resume_skills.foldl
    (fun acc skill =>
      if pyIn skill qst || pyIn skill ans then addToSet skill acc else acc)
    iv.skills_discussed
  exact mem_foldl_addToSet _ _ _ _ _ h

lemma update_covered_topics_projects_mono (iv : Interview) (qst ans y : String)
    (h : y ∈ iv.projects_discussed) :
    y ∈ (update_covered_topics iv qst ans).projects_discussed := by
  show y ∈ iv.resume_projects.foldl
    (fun acc p =>
      if (p != "") && (pyIn p qst || pyIn p ans) then addToSet p acc else acc)
    iv.projects_discussed
  exact mem_foldl_addToSet _ _ _ _ _ h

lemma gdq_skills_mono (tts : String → Option Bytes) (iv : Interview) (y : String)
    (h : y ∈ iv.skills_discussed) :
    y ∈ (generate_dynamic_question tts iv).2.skills_discussed := by
  unfold generate_dynamic_question
  split
  · exact addToSet_mem_of_mem _ _ _ h
  · exact h
  · exact h

lemma gdq_projects_mono (tts : String → Option Bytes) (iv : Interview) (y : String)
    (h : y ∈ iv.projects_discussed) :
    y ∈ (generate_dynamic_question tts iv).2.projects_discussed := by
  unfold generate_dynamic_question
  split
  · exact h
  · exact addToSet_mem_of_mem _ _ _ h
  · exact h

lemma nqp_skills_mono (tts : String → Option Bytes) (iv : Interview) (y : String)
    (h : y ∈ iv.skills_discussed) :
    y ∈ (nextQuestionPair tts iv).2.skills_discussed := by
  unfold nextQuestionPair
  split
  · split
    · exact h
    · split <;> exact h
  · exact gdq_skills_mono tts iv y h

lemma nqp_projects_mono (tts : String → Option Bytes) (iv : Interview) (y : String)
    (h : y ∈ iv.projects_discussed) :
    y ∈ (nextQuestionPair tts iv).2.projects_discussed := by
  unfold nextQuestionPair
  split
  · split
    · exact h
    · split <;> exact h
  · exact gdq_projects_mono tts iv y h

lemma step_skills_mono (tts : String → Option Bytes) (σ : SessState) (op : Op)
    (y : String) (h : y ∈ σ.interview.skills_discussed) :
    y ∈ (step tts σ op).2.interview.skills_discussed := by
  cases op with
  | getNextQuestion =>
    show y ∈ (get_next_question tts σ).2.interview.skills_discussed
    unfold get_next_question
    split
    · exact h
    · split
      next q iv' heq =>
        have h2 := nqp_skills_mono tts σ.interview y h
        rw [heq] at h2
        exact h2
      next => exact h
  | audioChunk d m => exact h
  | finishRecording =>
    simp only [step]
    split
    · exact h
    · exact h
  | getTranscription =>
    simp only [step]
    rcases hq : σ.interview.transcription_queue with _ | ⟨e, rest⟩
    · exact h
    · exact h
  | transcriptionArrives e ok =>
    cases ok with
    | false => exact h
    | true => exact update_covered_topics_skills_mono σ.interview e.question e.answer y h
  | getStatus => exact h

lemma step_projects_mono (tts : String → Option Bytes) (σ : SessState) (op : Op)
    (y : String) (h : y ∈ σ.interview.projects_discussed) :
    y ∈ (step tts σ op).2.interview.projects_discussed := by
  cases op with
  | getNextQuestion =>
    show y ∈ (get_next_question tts σ).2.interview.projects_discussed
    unfold get_next_question
    split
    · exact h
    · split
      next q iv' heq =>
        have h2 := nqp_projects_mono tts σ.interview y h
        rw [heq] at h2
        exact h2
      next => exact h
  | audioChunk d m => exact h
  | finishRecording =>
    simp only [step]
    split
    · exact h
    · exact h
  | getTranscription =>
    simp only [step]
    rcases hq : σ.interview.transcription_queue with _ | ⟨e, rest⟩
    · exact h
    · exact h
  | transcriptionArrives e ok =>
    cases ok with
    | false => exact h
    | true => exact update_covered_topics_projects_mono σ.interview e.question e.answer y h
  | getStatus => exact h

lemma reach_skills_mono (tts : String → Option Bytes) (σ σ' : SessState)
    (hr : Reach tts σ σ') (y : String) (h : y ∈ σ.interview.skills_discussed) :
    y ∈ σ'.interview.skills_discussed := by
  induction hr with
  | refl => exact h
  | tail σ'' op hprev ih => exact step_skills_mono tts σ'' op y ih

lemma reach_projects_mono (tts : String → Option Bytes) (σ σ' : SessState)
    (hr : Reach tts σ σ') (y : String) (h : y ∈ σ.interview.projects_discussed) :
    y ∈ σ'.interview.projects_discussed := by
  induction hr with
  | refl => exact h
  | tail σ'' op hprev ih => exact step_projects_mono tts σ'' op y ih

lemma dyn_select_skill (tts : String → Option Bytes) (iv : Interview) (a : String)
    (h : (dynSelection iv).1 = some a) :
    a ∉ iv.skills_discussed ∧
    a ∈ (generate_dynamic_question tts iv).2.skills_discussed := by
  unfold dynSelection at h
  unfold generate_dynamic_question
  rcases hud : get_unused_resume_elements iv with ⟨us, up⟩
  rw [hud] at h
  rcases us with _ | ⟨s, srest⟩
  · rcases up with _ | ⟨q, qrest⟩ <;> exact absurd h (by simp)
  · replace h : some s = some a := h
    injection h with h
    subst h
    constructor
    · have h1 : iv.resume_skills.filter
          (fun x => decide (x ∉ iv.skills_discussed)) = s :: srest :=
        congrArg Prod.fst hud
      have hmem : s ∈ iv.resume_skills.filter
          (fun x => decide (x ∉ iv.skills_discussed)) := by
        rw [h1]; exact List.mem_cons_self _ _
      exact of_decide_eq_true (List.mem_filter.mp hmem).2
    · exact addToSet_mem_self _ _

lemma dyn_select_project (tts : String → Option Bytes) (iv : Interview) (p : String)
    (h : (dynSelection iv).2 = some p) :
    p ∉ iv.projects_discussed ∧
    p ∈ (generate_dynamic_question tts iv).2.projects_discussed := by
  unfold dynSelection at h
  unfold generate_dynamic_question
  rcases hud : get_unused_resume_elements iv with ⟨us, up⟩
  rw [hud] at h
  rcases us with _ | ⟨s, srest⟩
  · rcases up with _ | ⟨q, qrest⟩
    · exact absurd h (by simp)
    · replace h : some q = some p := h
      injection h with h
      subst h
      constructor
      · have h1 : iv.resume_projects.filter
            (fun x => decide (x ∉ iv.projects_discussed)) = q :: qrest :=
          congrArg Prod.snd hud
        have hmem : q ∈ iv.resume_projects.filter
            (fun x => decide (x ∉ iv.projects_discussed)) := by
          rw [h1]; exact List.mem_cons_self _ _
        exact of_decide_eq_true (List.mem_filter.mp hmem).2
      · exact addToSet_mem_self _ _
  · exact absurd h (by simp)

lemma step_getNext_dyn (tts : String → Option Bytes) (σ : SessState)
    (h3 : 3 ≤ σ.interview.questions_asked)
    (hlt : σ.interview.questions_asked < σ.interview.max_questions) :
    (step tts σ Op.getNextQuestion).2.interview
      = (generate_dynamic_question tts σ.interview).2 := by
  have hp : nextQuestionPair tts σ.interview
      = (some (generate_dynamic_question tts σ.interview).1,
         (generate_dynamic_question tts σ.interview).2) := by
    unfold nextQuestionPair
    rw [if_neg (by omega)]
  show (get_next_question tts σ).2.interview = _
  unfold get_next_question
  rw [if_neg (by omega), hp]

/-- Claim C9: a skill or project selected by `_generate_dynamic_question` is
recorded in the session's `skills_discussed` / `projects_discussed` set
before the question is returned, and no call made in any later reachable
state of the same session can select the same skill or the same project
again. -/
theorem c9_dynamic_selection_never_repeats (tts : String → Option Bytes)
    (σ σ' : SessState)
    (h3 : 3 ≤ σ.interview.questions_asked)
    (hlt : σ.interview.questions_asked < σ.interview.max_questions)
    (hreach : Reach tts (step tts σ Op.getNextQuestion).2 σ') :
    (∀ a, (dynSelection σ.interview).1 = some a →
      a ∈ (step tts σ Op.getNextQuestion).2.interview.skills_discussed ∧
      ∀ b, (dynSelection σ'.interview).1 = some b → b ≠ a) ∧
    (∀ p, (dynSelection σ.interview).2 = some p →
      p ∈ (step tts σ Op.getNextQuestion).2.interview.projects_discussed ∧
      ∀ q, (dynSelection σ'.interview).2 = some q → q ≠ p) := by
  have hst := step_getNext_dyn tts σ h3 hlt
  constructor
  · intro a ha
    obtain ⟨hnot, hadd⟩ := dyn_select_skill tts σ.interview a ha
    constructor
    · rw [hst]; exact hadd
    · intro b hb hba
      subst hba
      have h1 : b ∈ (step tts σ Op.getNextQuestion).2.interview.skills_discussed := by
        rw [hst]; exact hadd
      have h2 := reach_skills_mono tts _ _ hreach b h1
      exact (dyn_select_skill tts σ'.interview b hb).1 h2
  · intro p hp
    obtain ⟨hnot, hadd⟩ := dyn_select_project tts σ.interview p hp
    constructor
    · rw [hst]; exact hadd
    · intro q hq hqp
      subst hqp
      have h1 : q ∈ (step tts σ Op.getNextQuestion).2.interview.projects_discussed := by
        rw [hst]; exact hadd
      have h2 := reach_projects_mono tts _ _ hreach q h1
      exact (dyn_select_project tts σ'.interview q hq).1 h2

/-- A session with resume skills Go and SQL, three questions already asked. -/
def sampleInterview : Interview := ⟨["Go", "SQL"], [], [], 3, 15, [], [], [], [], []⟩

/-- The per-session state wrapping `sampleInterview`. -/
def sampleSess : SessState := ⟨sampleInterview, [], "audio/webm"⟩

/-- Witness for `c9_dynamic_selection_never_repeats`: the first dynamic call
selects Go and the next one selects SQL, not Go again. -/
theorem c9_witness :
    3 ≤ sampleSess.interview.questions_asked ∧
    sampleSess.interview.questions_asked < sampleSess.interview.max_questions ∧
    (dynSelection sampleSess.interview).1 = some "Go" ∧
    (dynSelection
      ((step (fun _ => none) sampleSess Op.getNextQuestion).2).interview).1
        = some "SQL" ∧
    "Go" ∈ (step (fun _ => none) sampleSess Op.getNextQuestion).2.interview.skills_discussed ∧
    ("SQL" : String) ≠ "Go" := by
  have h := c9_dynamic_selection_never_repeats (fun _ => none) sampleSess
    ((step (fun _ => none) sampleSess Op.getNextQuestion).2)
    (by decide) (by decide) (Reach.refl _)
  have h1 := h.1 "Go" (by decide)
  exact ⟨by decide, by decide, by decide, by decide, h1.1, h1.2 "SQL" (by decide)⟩

/-- A completion order in which the second starter's TTS task finishes first:
the three tasks run on a 3-worker pool, so any permutation can occur. -/
def swappedCompletion : List FixedQ :=
  [⟨"Why are you interested in this role and company?", "behavioral", 2⟩,
   ⟨"Introduce yourself.", "introduction", 1⟩,
   ⟨"What's your biggest weakness and how are you improving it?", "behavioral", 3⟩]

/-- Claim C1 (counterexample): when the concurrent starter TTS tasks complete
out of submission order, the queue pops deliver the fixed starters in
completion order — here the first delivered question is starter 2, not
starter 1, refuting the fixed 1-2-3 delivery order. -/
theorem c1_delivery_order_counterexample :
    swappedCompletion.Perm fixed_starter_questions ∧
    deliveredTexts (fun _ => none)
        (initSession ["Go"] []
          (preload_fixed_starter_questions (fun _ => none) swappedCompletion)) 3
      = ["Why are you interested in this role and company?",
         "Introduce yourself.",
         "What's your biggest weakness and how are you improving it?"] ∧
    deliveredTexts (fun _ => none)
        (initSession ["Go"] []
          (preload_fixed_starter_questions (fun _ => none) swappedCompletion)) 3
      ≠ fixed_starter_questions.map FixedQ.text := by
  refine ⟨by decide, rfl, by decide⟩

/-- Claim C1 (amended): the first three delivered questions are exactly the
three fixed starter questions for every profile/job input, but in staging
(TTS-task completion) order, which is some permutation of the fixed order;
when the tasks complete in submission order, or whenever the staging queue is
empty and the text fallback serves the questions, the delivery order is
exactly ordinal 1, 2, 3. -/
theorem c1_first_three_amended (tts : String → Option Bytes)
    (skills projects : List String) (completed : List FixedQ)
    (hperm : completed.Perm fixed_starter_questions) :
    deliveredTexts tts
        (initSession skills projects
          (preload_fixed_starter_questions tts completed)) 3
      = completed.map FixedQ.text ∧
    (deliveredTexts tts
        (initSession skills projects
          (preload_fixed_starter_questions tts completed)) 3).Perm
      (fixed_starter_questions.map FixedQ.text) ∧
    (completed = fixed_starter_questions →
      deliveredTexts tts
          (initSession skills projects
            (preload_fixed_starter_questions tts completed)) 3
        = ["Introduce yourself.",
           "Why are you interested in this role and company?",
           "What's your biggest weakness and how are you improving it?"]) ∧
    deliveredTexts tts (initSession skills projects []) 3
      = ["Introduce yourself.",
         "Why are you interested in this role and company?",
         "What's your biggest weakness and how are you improving it?"] := by
  obtain ⟨a, b, c, rfl⟩ : ∃ a b c, completed = [a, b, c] := by
    have hl := hperm.length_eq
    rcases completed with _ | ⟨a, _ | ⟨b, _ | ⟨c, _ | ⟨d, t⟩⟩⟩⟩ <;>
      simp [fixed_starter_questions] at hl
    exact ⟨a, b, c, rfl⟩
  refine ⟨rfl, ?_, ?_, rfl⟩
  · exact hperm.map FixedQ.text
  · intro heq
    rw [heq]
    rfl

/-- Witness for `c1_first_three_amended`: with in-order task completion, the
fixed starters are delivered in order 1, 2, 3. -/
theorem c1_witness :
    fixed_starter_questions.Perm fixed_starter_questions ∧
    deliveredTexts (fun _ => none)
        (initSession ["Go"] []
          (preload_fixed_starter_questions (fun _ => none)
            fixed_starter_questions)) 3
      = ["Introduce yourself.",
         "Why are you interested in this role and company?",
         "What's your biggest weakness and how are you improving it?"] :=
  ⟨List.Perm.refl _,
   (c1_first_three_amended (fun _ => none) ["Go"] [] fixed_starter_questions
     (List.Perm.refl _)).2.2.1 rfl⟩

/-- A collected-transcriptions map where only ordinal 1 produced a result:
every other ordinal's worker timed out without publishing. -/
def lostAllButFirst : Nat → Option Entry :=
  fun i => if i = 1 then some ⟨1, "q1", "a1", 0⟩ else none

/-- Claim C2 (counterexample): with 15 questions asked and only ordinal 1's
transcription collected, the CLI finish step builds a one-entry transcript:
ordinals 2..15 are silently omitted, with no placeholder entries. -/
theorem c2_transcript_gaps_counterexample :
    build_qa_history lostAllButFirst = [⟨1, "q1", "a1", 0⟩] ∧
    (build_qa_history lostAllButFirst).length = 1 ∧
    (build_qa_history lostAllButFirst).map Entry.question_number = [1] := by
  refine ⟨by decide, by decide, by decide⟩

/-- Claim C2 (amended): the CLI finish step builds the transcript in strictly
ascending ordinal order, containing exactly those ordinals (1..15) whose
transcription result was actually received; an ordinal whose result never
arrived is omitted rather than filled with a placeholder (placeholder entries
exist only when the transcription worker itself failed and published a
`[Transcription failed: ...]` result, which then counts as received). -/
theorem c2_transcript_sorted_exactly_received (collected : Nat → Option Entry)
    (hnum : ∀ i e, collected i = some e → e.question_number = i) :
    (build_qa_history collected).Pairwise
      (fun e₁ e₂ => e₁.question_number < e₂.question_number) ∧
    ∀ e, e ∈ build_qa_history collected ↔
      ∃ i, 1 ≤ i ∧ i ≤ 15 ∧ collected i = some e := by
  constructor
  · refine List.Pairwise.filterMap _ ?_ (List.pairwise_lt_range 15)
    intro i i' hlt e he e' he'
    have h1 := hnum (i + 1) e (Option.mem_def.mp he)
    have h2 := hnum (i' + 1) e' (Option.mem_def.mp he')
    omega
  · intro e
    constructor
    · intro he
      obtain ⟨i, hi, hcol⟩ := List.mem_filterMap.mp he
      have hi15 : i < 15 := List.mem_range.mp hi
      exact ⟨i + 1, by omega, by omega, hcol⟩
    · rintro ⟨i, h1, h15, hcol⟩
      refine List.mem_filterMap.mpr ⟨i - 1, ?_, ?_⟩
      · exact List.mem_range.mpr (by omega)
      · have h : i - 1 + 1 = i := by omega
        rw [h]
        exact hcol

/-- Witness for `c2_transcript_sorted_exactly_received` at the
one-result-collected map. -/
theorem c2_witness :
    (∀ i e, lostAllButFirst i = some e → e.question_number = i) ∧
    (build_qa_history lostAllButFirst).Pairwise
      (fun e₁ e₂ => e₁.question_number < e₂.question_number) := by
  have hnum : ∀ i e, lostAllButFirst i = some e → e.question_number = i := by
    intro i e h
    unfold lostAllButFirst at h
    split at h
    · next hi =>
        injection h with h
        subst h
        exact hi.symm
    · exact absurd h (by simp)
  exact ⟨hnum, (c2_transcript_sorted_exactly_received lostAllButFirst hnum).1⟩

/-- The process-wide `WebSocketVoiceInterviewHandler` state: the `sessions`,
`audio_chunks` and `audio_mime_types` dicts (modelled as lookup functions)
plus the list of transcript files written so far by
`save_interview_to_file`. -/
structure Handler where
  sessions : String → Option Interview
  audio_chunks : String → Option (List Bytes)
  audio_mime_types : String → Option Mime
  saved : List (List Entry)

/-- Python dict assignment / deletion on a lookup function. -/
def hUpdate {β : Type} (m : String → Option β) (k : String) (v : Option β) :
    String → Option β :=
  fun k' => if k' = k then v else m k'

/-- `end_session` (voice_interview_handler.py lines 331-361): reject unknown
ids with the session-not-found error; otherwise produce the final report (an
external text-generation call, modelled as total), save the transcript and
delete every per-session entry. -/
def end_session (h : Handler) (sid : String) : Out × Handler :=
  match h.sessions sid with
  | none => (Out.err "Session not found", h)
  | some iv =>
    (Out.ok,
     { sessions := hUpdate h.sessions sid none
       audio_chunks := hUpdate h.audio_chunks sid none
       audio_mime_types := hUpdate h.audio_mime_types sid none
       saved := h.saved ++ [iv.qa_history] })

/-- The per-session view a handler operation works on: the stored interview
plus this session's chunk buffer (absent treated as empty) and MIME type
(absent defaulting to `audio/webm`, as `audio_mime_types.get`). -/
def handlerSess (h : Handler) (sid : String) (iv : Interview) : SessState :=
  ⟨iv, (h.audio_chunks sid).getD [], (h.audio_mime_types sid).getD "audio/webm"⟩

/-- `get_next_question` at registry level (lines 78-80 guard). -/
def handler_get_next_question (tts : String → Option Bytes) (h : Handler)
    (sid : String) : Out × Handler :=
  match h.sessions sid with
  | none => (Out.err "Session not found", h)
  | some iv =>
    let r := get_next_question tts (handlerSess h sid iv)
    (r.1, { h with sessions := hUpdate h.sessions sid (some r.2.interview) })

/-- `finish_recording` at registry level (lines 270-271 guard). -/
def handler_finish_recording (tts : String → Option Bytes) (h : Handler)
    (sid : String) : Out × Handler :=
  match h.sessions sid with
  | none => (Out.err "Session not found", h)
  | some iv =>
    let r := step tts (handlerSess h sid iv) Op.finishRecording
    (r.1, { h with
        sessions := hUpdate h.sessions sid (some r.2.interview)
        audio_chunks := hUpdate h.audio_chunks sid (some r.2.chunks) })

/-- `get_transcription` at registry level (lines 309-310 guard). -/
def handler_get_transcription (tts : String → Option Bytes) (h : Handler)
    (sid : String) : Out × Handler :=
  match h.sessions sid with
  | none => (Out.err "Session not found", h)
  | some iv =>
    let r := step tts (handlerSess h sid iv) Op.getTranscription
    (r.1, { h with sessions := hUpdate h.sessions sid (some r.2.interview) })

/-- `get_session_status` at registry level (lines 365-366 guard). -/
def handler_get_status (h : Handler) (sid : String) : Out :=
  match h.sessions sid with
  | none => Out.err "Session not found"
  | some _ => Out.ok

/-- `process_audio_chunk` at registry level (lines 258-266): performs no
session-existence check; a missing chunk buffer is recreated, the MIME type
stored, and the chunk appended. -/
def handler_process_audio_chunk (h : Handler) (sid : String) (d : Bytes)
    (m : Mime) : Handler :=
  let buf := (h.audio_chunks sid).getD []
  { h with
      audio_chunks := hUpdate h.audio_chunks sid (some (buf ++ [d]))
      audio_mime_types := hUpdate h.audio_mime_types sid (some m) }

lemma hUpdate_same {β : Type} (m : String → Option β) (k : String) (v : Option β) :
    hUpdate m k v k = v := by
  unfold hUpdate
  rw [if_pos rfl]

lemma end_session_some (h : Handler) (sid : String) (iv : Interview)
    (hs : h.sessions sid = some iv) :
    end_session h sid
      = (Out.ok,
         { sessions := hUpdate h.sessions sid none
           audio_chunks := hUpdate h.audio_chunks sid none
           audio_mime_types := hUpdate h.audio_mime_types sid none
           saved := h.saved ++ [iv.qa_history] }) := by
  unfold end_session
  rw [hs]

lemma end_session_none (h : Handler) (sid : String)
    (hs : h.sessions sid = none) :
    end_session h sid = (Out.err "Session not found", h) := by
  unfold end_session
  rw [hs]

lemma handler_get_next_question_none (tts : String → Option Bytes) (h : Handler)
    (sid : String) (hs : h.sessions sid = none) :
    handler_get_next_question tts h sid = (Out.err "Session not found", h) := by
  unfold handler_get_next_question
  rw [hs]

lemma handler_finish_recording_none (tts : String → Option Bytes) (h : Handler)
    (sid : String) (hs : h.sessions sid = none) :
    handler_finish_recording tts h sid = (Out.err "Session not found", h) := by
  unfold handler_finish_recording
  rw [hs]

lemma handler_get_transcription_none (tts : String → Option Bytes) (h : Handler)
    (sid : String) (hs : h.sessions sid = none) :
    handler_get_transcription tts h sid = (Out.err "Session not found", h) := by
  unfold handler_get_transcription
  rw [hs]

lemma handler_get_status_none (h : Handler) (sid : String)
    (hs : h.sessions sid = none) :
    handler_get_status h sid = Out.err "Session not found" := by
  unfold handler_get_status
  rw [hs]

/-- Claim C5 (amended): after a successful `end_session`, the session is
destroyed, so the second `end_session` — and every other guarded session
operation — is rejected with the generic session-not-found error (the code
has no distinguished closed-session error), the second call saves no second
transcript, and `process_audio_chunk` alone is still accepted, silently
recreating a chunk buffer for the dead id. -/
theorem c5_end_session_twice (tts : String → Option Bytes) (h : Handler)
    (sid : String) (iv : Interview) (d : Bytes) (m : Mime)
    (hs : h.sessions sid = some iv) :
    (end_session h sid).1 = Out.ok ∧
    (end_session h sid).2.saved = h.saved ++ [iv.qa_history] ∧
    (end_session (end_session h sid).2 sid).1 = Out.err "Session not found" ∧
    (end_session (end_session h sid).2 sid).2.saved
      = (end_session h sid).2.saved ∧
    (handler_get_next_question tts (end_session h sid).2 sid).1
      = Out.err "Session not found" ∧
    (handler_finish_recording tts (end_session h sid).2 sid).1
      = Out.err "Session not found" ∧
    (handler_get_transcription tts (end_session h sid).2 sid).1
      = Out.err "Session not found" ∧
    handler_get_status (end_session h sid).2 sid
      = Out.err "Session not found" ∧
    (handler_process_audio_chunk (end_session h sid).2 sid d m).audio_chunks sid
      = some [d] := by
  have he := end_session_some h sid iv hs
  have hgone : (end_session h sid).2.sessions sid = none := by
    rw [he]
    exact hUpdate_same _ _ _
  have hchunksgone : (end_session h sid).2.audio_chunks sid = none := by
    rw [he]
    exact hUpdate_same _ _ _
  refine ⟨by rw [he], by rw [he], ?_, ?_, ?_, ?_, ?_, ?_, ?_⟩
  · rw [end_session_none _ _ hgone]
  · rw [end_session_none _ _ hgone]
  · rw [handler_get_next_question_none tts _ _ hgone]
  · rw [handler_finish_recording_none tts _ _ hgone]
  · rw [handler_get_transcription_none tts _ _ hgone]
  · exact handler_get_status_none _ _ hgone
  · unfold handler_process_audio_chunk
    rw [hchunksgone]
    exact hUpdate_same _ _ _

/-- A one-session handler holding the fresh session "s". -/
def sampleHandler : Handler :=
  ⟨fun k => if k = "s" then some sampleInterview else none,
   fun k => if k = "s" then some [] else none,
   fun k => if k = "s" then some "audio/webm" else none,
   []⟩

/-- Claim C5 (counterexample): the second `end_session` on "s" is rejected
with the generic "Session not found" response — byte-for-byte the same
response as ending the never-created id "ghost" — so no distinguished
`SessionClosedError` exists; and `process_audio_chunk` on the ended id is
accepted rather than rejected, recreating a buffer. -/
theorem c5_no_session_closed_error_counterexample :
    (end_session (end_session sampleHandler "s").2 "s").1
      = Out.err "Session not found" ∧
    (end_session (end_session sampleHandler "s").2 "s").1
      = (end_session sampleHandler "ghost").1 ∧
    (handler_process_audio_chunk (end_session sampleHandler "s").2 "s"
      [7] "audio/webm").audio_chunks "s" = some [[7]] := by
  refine ⟨by decide, by decide, by decide⟩

/-- Witness for `c5_end_session_twice` on the one-session handler. -/
theorem c5_witness :
    sampleHandler.sessions "s" = some sampleInterview ∧
    (end_session sampleHandler "s").1 = Out.ok ∧
    (end_session (end_session sampleHandler "s").2 "s").1
      = Out.err "Session not found" ∧
    (end_session (end_session sampleHandler "s").2 "s").2.saved
      = (end_session sampleHandler "s").2.saved := by
  have h := c5_end_session_twice (fun _ => none) sampleHandler "s"
    sampleInterview [7] "audio/webm" (by decide)
  exact ⟨by decide, h.1, h.2.2.1, h.2.2.2.1⟩
